import Mathlib

/-!
Shallow embedding of the browser chat widget in `src/frontend/chat.js`
(message-rendering and request-lifecycle pipeline).

The widget state is modelled explicitly: the transcript is a list of rendered
entries, the single module-level mutable variable `lastModelUsed` is a state
field, and the observable external effects (backend fetches, sound-playback
attempts, `console.error` diagnostics, runs of the copy-button binder) are
recorded in counters / lists.  `sendMessage` is an `async` function whose only
suspension point is the `fetch` await, so it is split into the synchronous
prefix `sendMessage_start` (everything before the await) and the continuation
`sendMessage_resolve` (everything after the promise settles).  The external
markdown converter (`marked.parse`) is a black-box parameter `mp`; the code's
own regex post-processing of its output is embedded faithfully as
`wrapCodeBlocks`.
-/

/-- JS `String.prototype.trim` on the character list: drop leading and
trailing whitespace.  (`Char.isWhitespace` covers the space, tab, CR and LF
characters relevant here.) -/
def trimL (l : List Char) : List Char :=
  ((l.dropWhile Char.isWhitespace).reverse.dropWhile Char.isWhitespace).reverse

/-- `inputBox.value.trim()` from chat.js line 145. -/
def jsTrim (s : String) : String := String.mk (trimL s.data)

/-- One rendered transcript entry (a DOM node appended to `chatContainer`).
`user` renders via `innerText` (literal, non-HTML-interpreted text);
`system` renders `<i>text</i>` plus, when `withLoader`, the decorative
loading bar; `ai` stores the final `innerHTML` of an assistant bubble;
`typing` is the transient typing placeholder, identified by an id so that
`typingBubble.remove()` can be modelled. -/
inductive Entry where
  | user (text : String)
  | system (text : String) (withLoader : Bool)
  | ai (html : String)
  | typing (id : Nat)
deriving DecidableEq, Repr

/-- The JSON body of the `fetch` call (chat.js lines 158-162). -/
structure Payload where
  message : String
  model : String
  prev_model : String
deriving DecidableEq, Repr

/-- The expected JSON shape of the backend response. -/
structure ChatResponse where
  reply : String
  system_note : Option String
deriving DecidableEq, Repr

/-- One in-flight backend request: the payload sent and the id of the typing
placeholder created for it (both captured before the await). -/
structure PendingReq where
  bubbleId : Nat
  payload : Payload
deriving DecidableEq, Repr

/-- The whole widget state: transcript DOM, input box value, model selector
value, the module-level `lastModelUsed` variable, a fresh-id counter for
typing bubbles, the set of in-flight requests, and counters for the
observable external effects. -/
structure ChatState where
  transcript : List Entry
  inputValue : String
  modelValue : String
  lastModelUsed : String
  nextBubbleId : Nat
  pending : List PendingReq
  calls : List Payload
  soundAttempts : Nat
  consoleErrors : Nat
  binderRuns : Nat
deriving Repr

/-- chat.js `addUserMessage`: append a user-styled entry whose content is the
literal text (set via `innerText`). -/
def addUserMessage (text : String) (s : ChatState) : ChatState :=
  { s with transcript := s.transcript ++ [Entry.user text] }

/-- chat.js `addSystemNote`: append a system-styled entry (`<i>text</i>`,
plus the decorative loading bar when `withLoader`). -/
def addSystemNote (text : String) (withLoader : Bool) (s : ChatState) : ChatState :=
  { s with transcript := s.transcript ++ [Entry.system text withLoader] }

/-- chat.js `addTypingBubble`: append the typing placeholder and return a
handle to it (modelled by a fresh id). -/
def addTypingBubble (s : ChatState) : ChatState × Nat :=
  ({ s with transcript := s.transcript ++ [Entry.typing s.nextBubbleId],
            nextBubbleId := s.nextBubbleId + 1 }, s.nextBubbleId)

/-- chat.js `playClick`: one attempt to play the embedded click sound, all
failures swallowed.  Only the attempt itself is observable. -/
def playClick (s : ChatState) : ChatState :=
  { s with soundAttempts := s.soundAttempts + 1 }

/-- `typingBubble.remove()`: delete the typing placeholder with the given id
from the transcript (ids are unique by construction). -/
def removeTyping (id : Nat) (t : List Entry) : List Entry :=
  t.filter (fun e => e != Entry.typing id)

/-- Longest-prefix test on character lists. -/
def hasPrefixL : List Char → List Char → Bool
  | [], _ => true
  | _ :: _, [] => false
  | a :: as, b :: bs => a == b && hasPrefixL as bs

/-- Split `hay` at the first occurrence of `needle`: `some (before, after)`
where `hay = before ++ needle ++ after` and `needle` does not start at any
earlier position.  This is the semantics of a lazy regex group followed by
the literal `needle`. -/
def splitFirst (needle : List Char) (hay : List Char) : Option (List Char × List Char) :=
  match hay with
  | [] => if needle = [] then some ([], []) else none
  | c :: t =>
    if hasPrefixL needle (c :: t) then some ([], (c :: t).drop needle.length)
    else (splitFirst needle t).map (fun p => (c :: p.1, p.2))

/-- Like `splitFirst`, but the scan fails on reaching a newline before the
needle: the semantics of the lazy group `(.*?)` (where `.` does not match
newline) followed by the literal `needle`. -/
def splitFirstStopNL (needle : List Char) (hay : List Char) : Option (List Char × List Char) :=
  match hay with
  | [] => if needle = [] then some ([], []) else none
  | c :: t =>
    if hasPrefixL needle (c :: t) then some ([], (c :: t).drop needle.length)
    else if c = '\n' then none
    else (splitFirstStopNL needle t).map (fun p => (c :: p.1, p.2))

/-- Literal `<pre><code` of the code-block regex (chat.js line 63). -/
def preCodeOpen : List Char := "<pre><code".data

/-- Literal ` class="language-` of the regex's optional group. -/
def langOpen : List Char := " class=\"language-".data

/-- Literal `">` closing the optional language group. -/
def quoteGt : List Char := "\">".data

/-- Literal `</code></pre>` ending the code-block match. -/
def closeTag : List Char := "</code></pre>".data

/-- Attempt to match the regex
`<pre><code(?: class="language-(.*?)")?>([\s\S]*?)<\/code><\/pre>`
at the start of `s`.  On success returns the captured code group and the
remainder of the input after the match.  The lazy groups are resolved as
first occurrences (`(.*?)"` followed by `>` commits to the first `">` on the
same line; `([\s\S]*?)` commits to the first `</code></pre>`); when the
optional language group cannot complete, the fallback requires `>`
immediately after `<pre><code`, exactly as the backtracking JS engine does. -/
def matchCodeBlock (s : List Char) : Option (List Char × List Char) :=
  if hasPrefixL preCodeOpen s then
    if hasPrefixL langOpen (s.drop preCodeOpen.length) then
      (splitFirstStopNL quoteGt ((s.drop preCodeOpen.length).drop langOpen.length)).bind
        (fun p => splitFirst closeTag p.2)
    else
      if (s.drop preCodeOpen.length).headD ' ' = '>' then
        splitFirst closeTag (s.drop preCodeOpen.length).tail
      else none
  else none

/-- The replacement template (chat.js lines 66-71) up to the interpolated
code: whitespace reproduced exactly from the template literal. -/
def wrapHead : String := "\n                <div class=\"code-wrapper\">\n                    <button class=\"copy-btn\">copy</button>\n                    <pre><code>"

/-- The replacement template after the interpolated code. -/
def wrapTail : String := "</code></pre>\n                </div>\n            "

def wrapHeadL : List Char := wrapHead.data

def wrapTailL : List Char := wrapTail.data

/-- One global-replace pass of the code-block regex, fuelled to make the
definition structurally recursive (the fuel is always at least the input
length, which suffices: every step consumes at least one character). -/
def wrapAuxF : Nat → List Char → List Char
  | _, [] => []
  | 0, l => l
  | fuel + 1, c :: cs =>
    match matchCodeBlock (c :: cs) with
    | some (code, rest) => wrapHeadL ++ code ++ wrapTailL ++ wrapAuxF fuel rest
    | none => c :: wrapAuxF fuel cs

/-- Global replace of the code-block regex over a character list. -/
def wrapL (l : List Char) : List Char := wrapAuxF l.length l

/-- chat.js lines 62-73: `html.replace(/<pre><code(?: class="language-(.*?)")?>([\s\S]*?)<\/code><\/pre>/g, ...)`,
wrapping every code block in a `code-wrapper` div with a copy button and
dropping the language class. -/
def wrapCodeBlocks (s : String) : String := String.mk (wrapL s.data)

/-- The full replacement emitted for one matched code block. -/
def codeWrapper (code : String) : String := wrapHead ++ code ++ wrapTail

/-- Number of non-overlapping occurrences of `needle` in `hay`, scanning left
to right (fuelled for structural recursion). -/
def countOccurF : Nat → List Char → List Char → Nat
  | 0, _, _ => 0
  | fuel + 1, needle, hay =>
    match splitFirst needle hay with
    | none => 0
    | some (_, rest) => 1 + countOccurF fuel needle rest

def countOccur (needle hay : List Char) : Nat := countOccurF (hay.length + 1) needle hay

/-- chat.js `addAIMessage`: append an assistant-styled entry whose
`innerHTML` is the markdown conversion (`mp`, the external `marked.parse`)
post-processed by `wrapCodeBlocks`, then run `activateCopyButtons` over the
document (recorded as one binder run). -/
def addAIMessage (mp : String → String) (text : String) (s : ChatState) : ChatState :=
  { s with transcript := s.transcript ++ [Entry.ai (wrapCodeBlocks (mp text))],
           binderRuns := s.binderRuns + 1 }

/-- The synchronous prefix of chat.js `sendMessage` (lines 144-163), i.e.
everything executed before the `fetch` promise settles: trim the input; if
empty, return with no effect; otherwise append the user message, clear the
input box, append a typing placeholder, capture the selected model, and
issue one backend call with payload `{message, model, prev_model}`. -/
def sendMessage_start (s : ChatState) : ChatState :=
  let text := jsTrim s.inputValue
  if text = "" then s
  else
    let s1 := addUserMessage text s
    let s2 := { s1 with inputValue := "" }
    let r := addTypingBubble s2
    let s3 := r.1
    let bid := r.2
    let payload : Payload :=
      { message := text, model := s3.modelValue, prev_model := s3.lastModelUsed }
    { s3 with pending := s3.pending ++ [{ bubbleId := bid, payload := payload }],
              calls := s3.calls ++ [payload] }

/-- How the awaited `fetch`/`response.json()` settles: the fetch rejects, or
it resolves with some HTTP status and a body that either parses as the
expected JSON shape (`some`) or does not (`none`, making `response.json()`
throw). -/
inductive FetchOutcome where
  | networkError
  | response (status : Nat) (body : Option ChatResponse)
deriving DecidableEq, Repr

/-- Outcomes that land in the `catch` block of `sendMessage`: a rejected
fetch, or a body that fails JSON parsing.  (An HTTP error status with a JSON
body is NOT a failure: the status is never inspected.) -/
def isFailureOutcome : FetchOutcome → Bool
  | FetchOutcome.networkError => true
  | FetchOutcome.response _ none => true
  | FetchOutcome.response _ (some _) => false

/-- The transcript entries produced by the `if (data.system_note)` branch:
one loader-decorated system note when the field is present and truthy
(non-empty), nothing otherwise. -/
def systemNoteEntries : Option String → List Entry
  | none => []
  | some note => if note = "" then [] else [Entry.system note true]

/-- The fixed assistant-styled error message of the `catch` block
(chat.js line 182). -/
def connectErrorText : String := "❌ Could not connect to backend."

/-- The continuation of chat.js `sendMessage` after the awaited backend call
settles (lines 166-184).  On a parsed JSON body (any HTTP status): remove
the typing placeholder; if `data.system_note` is truthy, play the click
sound and append a loader-decorated system note; set `lastModelUsed` to the
model captured at send time; append the assistant message rendered from
`data.reply`.  Otherwise (`catch`): remove the typing placeholder, append
the fixed error message as an assistant entry, and log the error to the
console.  Settling also removes the request from the in-flight set. -/
def sendMessage_resolve (mp : String → String) (req : PendingReq)
    (outcome : FetchOutcome) (s : ChatState) : ChatState :=
  let s0 : ChatState := { s with pending := s.pending.filter (fun r => r != req) }
  match outcome with
  | FetchOutcome.response _ (some data) =>
    let s1 : ChatState := { s0 with transcript := removeTyping req.bubbleId s0.transcript }
    let s2 : ChatState :=
      match data.system_note with
      | some note => if note = "" then s1 else addSystemNote note true (playClick s1)
      | none => s1
    let s3 : ChatState := { s2 with lastModelUsed := req.payload.model }
    addAIMessage mp data.reply s3
  | _ =>
    let s1 : ChatState := { s0 with transcript := removeTyping req.bubbleId s0.transcript }
    let s2 : ChatState := addAIMessage mp connectErrorText s1
    { s2 with consoleErrors := s2.consoleErrors + 1 }

/-- The `modelSelect` change listener (chat.js lines 201-207): read the newly
selected value (the DOM control has already changed when the event fires),
play the click sound, and append a loader-decorated system note announcing
the switch.  No backend contact, no change to the in-flight set. -/
def modelChange (newModel : String) (s : ChatState) : ChatState :=
  addSystemNote ("Switching to <b>" ++ newModel ++ "</b> 🤖") true
    (playClick { s with modelValue := newModel })

/-- UI events: typing into the input box, the send-button click, the Enter
key (without Shift, which calls `sendMessage` just like the button), the
settling of one in-flight backend call, and a model-selector change. -/
inductive Event where
  | setInput (text : String)
  | clickSend
  | pressEnter
  | fetchSettles (req : PendingReq) (outcome : FetchOutcome)
  | changeModel (m : String)

/-- Which events are user actions (as opposed to network completions). -/
def isUserAction : Event → Bool
  | Event.setInput _ => true
  | Event.clickSend => true
  | Event.pressEnter => true
  | Event.changeModel _ => true
  | Event.fetchSettles _ _ => false

/-- One step of the event loop. A `fetchSettles` event only fires for a
request that is actually in flight. -/
def step (mp : String → String) (s : ChatState) : Event → ChatState
  | Event.setInput t => { s with inputValue := t }
  | Event.clickSend => sendMessage_start s
  | Event.pressEnter => sendMessage_start s
  | Event.fetchSettles req outcome =>
      if req ∈ s.pending then sendMessage_resolve mp req outcome s else s
  | Event.changeModel m => modelChange m s

/-- Run a sequence of events from a state. -/
def run (mp : String → String) (s : ChatState) (evs : List Event) : ChatState :=
  evs.foldl (step mp) s

/-- The state after the script's top level runs (chat.js lines 4-216):
`lastModelUsed` is initialised to the selector's value and the welcome
assistant message is rendered. -/
def initState (mp : String → String) (model0 : String) : ChatState :=
  addAIMessage mp
    ("Welcome! 😊 How can I help you today?<br>" ++
     "Paste your prompt, logs, or error code — I’ll guide you step-by-step in fixing your issues.🔧")
    { transcript := [], inputValue := "", modelValue := model0,
      lastModelUsed := model0, nextBubbleId := 0, pending := [], calls := [],
      soundAttempts := 0, consoleErrors := 0, binderRuns := 0 }

/-- One rendered `.copy-btn` element: the `data-bound` marker, the number of
times a click handler has been attached to it, and its current label. -/
structure CopyBtn where
  bound : Bool
  handlers : Nat
  label : String
deriving DecidableEq, Repr

/-- The body of the `forEach` in chat.js `activateCopyButtons` (lines
108-125): skip an element whose `data-bound` marker is set; otherwise set the
marker and attach the click handler. -/
def bindBtn (b : CopyBtn) : CopyBtn :=
  if b.bound then b else { b with bound := true, handlers := b.handlers + 1 }

/-- chat.js `activateCopyButtons`: visit every copy button currently in the
document. -/
def activateCopyButtons (bs : List CopyBtn) : List CopyBtn := bs.map bindBtn

/-- The observable effects of one click on a copy button (chat.js lines
113-124): the clipboard writes requested and, if any, the transient label
shown, the delay in milliseconds, and the label restored afterwards. -/
structure ClickEffects where
  writes : List String
  transientLabel : Option (String × Nat × String)
deriving DecidableEq, Repr

/-- The click handler attached by `activateCopyButtons`: if no sibling code
element exists, do nothing; otherwise request one clipboard write of the
code's text; on success show `copied!` and revert to `copy` after 1000 ms;
on failure show `failed` and revert to `copy` after 1200 ms. -/
def copyClick (codeEl : Option String) (clipboardOk : Bool) : ClickEffects :=
  match codeEl with
  | none => { writes := [], transientLabel := none }
  | some code =>
      { writes := [code],
        transientLabel :=
          some (if clipboardOk then ("copied!", 1000, "copy") else ("failed", 1200, "copy")) }

/-- Claim C3: for every input that is non-empty after trimming, the
synchronous part of a send appends exactly one user entry holding the
trimmed text literally (a `Entry.user` node renders via `innerText`) and
exactly one typing placeholder, clears the input field, and issues exactly
one backend call whose payload is `{message := trimmed text, model :=
currently selected model, prev_model := previously-used model}` — all before
the backend call resolves (`sendMessage_start` is everything up to the
await). -/
theorem sendMessage_start_nonempty (s : ChatState) (h : jsTrim s.inputValue ≠ "") :
    (sendMessage_start s).transcript
        = s.transcript ++ [Entry.user (jsTrim s.inputValue), Entry.typing s.nextBubbleId]
      ∧ (sendMessage_start s).inputValue = ""
      ∧ (sendMessage_start s).calls
        = s.calls ++ [⟨jsTrim s.inputValue, s.modelValue, s.lastModelUsed⟩]
      ∧ (sendMessage_start s).pending
        = s.pending ++ [⟨s.nextBubbleId, ⟨jsTrim s.inputValue, s.modelValue, s.lastModelUsed⟩⟩]
      ∧ (sendMessage_start s).lastModelUsed = s.lastModelUsed := by
  simp [sendMessage_start, addUserMessage, addTypingBubble, h]

/-- Concrete witness for `sendMessage_start_nonempty` at the input `" hi "`. -/
def egIdle : ChatState :=
  { transcript := [], inputValue := " hi ", modelValue := "codellama",
    lastModelUsed := "llama3", nextBubbleId := 0, pending := [], calls := [],
    soundAttempts := 0, consoleErrors := 0, binderRuns := 0 }

theorem sendMessage_start_nonempty_witness :
    jsTrim egIdle.inputValue ≠ ""
      ∧ ((sendMessage_start egIdle).transcript
            = egIdle.transcript
                ++ [Entry.user (jsTrim egIdle.inputValue), Entry.typing egIdle.nextBubbleId]
          ∧ (sendMessage_start egIdle).inputValue = ""
          ∧ (sendMessage_start egIdle).calls
            = egIdle.calls
                ++ [⟨jsTrim egIdle.inputValue, egIdle.modelValue, egIdle.lastModelUsed⟩]
          ∧ (sendMessage_start egIdle).pending
            = egIdle.pending
                ++ [⟨egIdle.nextBubbleId,
                     ⟨jsTrim egIdle.inputValue, egIdle.modelValue, egIdle.lastModelUsed⟩⟩]
          ∧ (sendMessage_start egIdle).lastModelUsed = egIdle.lastModelUsed) :=
  ⟨by decide, sendMessage_start_nonempty egIdle (by decide)⟩

/-- Claim C4: for every input that is empty or whitespace-only (that is,
empty after trimming, the code's own criterion `if (!text) return`), a send
is a complete no-op: nothing is appended, nothing cleared, no backend call
issued, the state unchanged. -/
theorem sendMessage_start_empty (s : ChatState) (h : jsTrim s.inputValue = "") :
    sendMessage_start s = s := by
  simp [sendMessage_start, h]

def egIdleBlank : ChatState :=
  { transcript := [], inputValue := "   ", modelValue := "codellama",
    lastModelUsed := "llama3", nextBubbleId := 0, pending := [], calls := [],
    soundAttempts := 0, consoleErrors := 0, binderRuns := 0 }

theorem sendMessage_start_empty_witness :
    jsTrim egIdleBlank.inputValue = "" ∧ sendMessage_start egIdleBlank = egIdleBlank :=
  ⟨by decide, sendMessage_start_empty egIdleBlank (by decide)⟩

/-- Claim C8: clicking a copy button whose sibling code element has text
content `X` requests exactly one clipboard write of exactly `X` (no retry);
on success the label becomes `copied!` and reverts to `copy` after 1000 ms;
on failure it becomes `failed` and reverts to `copy` after 1200 ms. -/
theorem copyClick_behavior (X : String) :
    copyClick (some X) true
        = { writes := [X], transientLabel := some ("copied!", 1000, "copy") }
      ∧ copyClick (some X) false
        = { writes := [X], transientLabel := some ("failed", 1200, "copy") }
      ∧ ∀ ok : Bool, (copyClick (some X) ok).writes = [X] := by
  refine ⟨rfl, rfl, ?_⟩
  intro ok
  cases ok <;> rfl

/-- Claim C9: changing the model selector to `B` appends exactly one
loader-decorated system note whose text mentions `B` and makes exactly one
sound-playback attempt, in every state (so independent of any pending
request); the event issues no backend call and leaves the in-flight set —
the Idle/Pending request state — untouched. -/
theorem modelChange_effects (s : ChatState) (B : String) :
    (modelChange B s).transcript
        = s.transcript ++ [Entry.system ("Switching to <b>" ++ B ++ "</b> 🤖") true]
      ∧ (modelChange B s).soundAttempts = s.soundAttempts + 1
      ∧ (modelChange B s).calls = s.calls
      ∧ (modelChange B s).pending = s.pending
      ∧ (modelChange B s).lastModelUsed = s.lastModelUsed := by
  simp [modelChange, addSystemNote, playClick]

/-- Claim C1: when the backend call resolves with a body that parses as the
expected JSON shape and carries a (truthy) `system_note`, the effects occur
in order: the typing placeholder is removed, one sound-playback attempt is
made and one loader-decorated system note holding the note is appended, the
previously-used-model variable becomes the model captured at send time, and
finally one assistant entry rendered from `reply` through the markdown
post-processor is appended, with the copy-action binder run once over the
new content.  The transcript equation exhibits the order: placeholder gone,
system note before the assistant entry, both after the surviving entries. -/
theorem sendMessage_resolve_success_note (mp : String → String) (req : PendingReq)
    (st : Nat) (data : ChatResponse) (s : ChatState) (note : String)
    (hn : data.system_note = some note) (hne : note ≠ "") :
    (sendMessage_resolve mp req (FetchOutcome.response st (some data)) s).transcript
        = removeTyping req.bubbleId s.transcript
            ++ [Entry.system note true, Entry.ai (wrapCodeBlocks (mp data.reply))]
      ∧ (sendMessage_resolve mp req (FetchOutcome.response st (some data)) s).soundAttempts
        = s.soundAttempts + 1
      ∧ (sendMessage_resolve mp req (FetchOutcome.response st (some data)) s).lastModelUsed
        = req.payload.model
      ∧ (sendMessage_resolve mp req (FetchOutcome.response st (some data)) s).binderRuns
        = s.binderRuns + 1 := by
  simp [sendMessage_resolve, addSystemNote, addAIMessage, playClick, hn, hne]

def egReq : PendingReq := ⟨0, ⟨"hi", "codellama", "llama3"⟩⟩

def egPendingState : ChatState :=
  { transcript := [Entry.user "hi", Entry.typing 0], inputValue := "",
    modelValue := "codellama", lastModelUsed := "llama3", nextBubbleId := 1,
    pending := [⟨0, ⟨"hi", "codellama", "llama3"⟩⟩], calls := [⟨"hi", "codellama", "llama3"⟩],
    soundAttempts := 0, consoleErrors := 0, binderRuns := 0 }

def egNoteResponse : ChatResponse := ⟨"hello!", some "Switched model"⟩

theorem sendMessage_resolve_success_note_witness :
    egNoteResponse.system_note = some "Switched model"
      ∧ "Switched model" ≠ ""
      ∧ ((sendMessage_resolve (fun t => t) egReq
              (FetchOutcome.response 200 (some egNoteResponse)) egPendingState).transcript
            = removeTyping egReq.bubbleId egPendingState.transcript
                ++ [Entry.system "Switched model" true,
                    Entry.ai (wrapCodeBlocks ((fun t => t) egNoteResponse.reply))]
          ∧ (sendMessage_resolve (fun t => t) egReq
              (FetchOutcome.response 200 (some egNoteResponse)) egPendingState).soundAttempts
            = egPendingState.soundAttempts + 1
          ∧ (sendMessage_resolve (fun t => t) egReq
              (FetchOutcome.response 200 (some egNoteResponse)) egPendingState).lastModelUsed
            = egReq.payload.model
          ∧ (sendMessage_resolve (fun t => t) egReq
              (FetchOutcome.response 200 (some egNoteResponse)) egPendingState).binderRuns
            = egPendingState.binderRuns + 1) :=
  ⟨rfl, by decide,
   sendMessage_resolve_success_note (fun t => t) egReq 200 egNoteResponse egPendingState
     "Switched model" rfl (by decide)⟩

/-- Claim C2: when the backend call rejects or its body fails to parse as
JSON (`isFailureOutcome`), exactly one assistant-styled entry rendered from
the fixed error text is appended, the typing placeholder is removed, the
previously-used-model variable keeps its value from before the attempt, no
sound is played, and the diagnostic goes to the operator-facing console (one
`console.error`) while the transcript receives nothing but the fixed
message; the fixed text contains "Could not connect to backend". -/
theorem sendMessage_resolve_failure (mp : String → String) (req : PendingReq)
    (outcome : FetchOutcome) (s : ChatState) (h : isFailureOutcome outcome = true) :
    (sendMessage_resolve mp req outcome s).transcript
        = removeTyping req.bubbleId s.transcript
            ++ [Entry.ai (wrapCodeBlocks (mp connectErrorText))]
      ∧ (sendMessage_resolve mp req outcome s).lastModelUsed = s.lastModelUsed
      ∧ (sendMessage_resolve mp req outcome s).consoleErrors = s.consoleErrors + 1
      ∧ (sendMessage_resolve mp req outcome s).soundAttempts = s.soundAttempts
      ∧ connectErrorText = "❌ " ++ "Could not connect to backend" ++ "." := by
  cases outcome with
  | networkError =>
    simp [sendMessage_resolve, addAIMessage, connectErrorText]
  | response st body =>
    cases body with
    | none => simp [sendMessage_resolve, addAIMessage, connectErrorText]
    | some data => simp [isFailureOutcome] at h

theorem sendMessage_resolve_failure_witness :
    isFailureOutcome FetchOutcome.networkError = true
      ∧ ((sendMessage_resolve (fun t => t) egReq FetchOutcome.networkError
              egPendingState).transcript
            = removeTyping egReq.bubbleId egPendingState.transcript
                ++ [Entry.ai (wrapCodeBlocks ((fun t => t) connectErrorText))]
          ∧ (sendMessage_resolve (fun t => t) egReq FetchOutcome.networkError
              egPendingState).lastModelUsed = egPendingState.lastModelUsed
          ∧ (sendMessage_resolve (fun t => t) egReq FetchOutcome.networkError
              egPendingState).consoleErrors = egPendingState.consoleErrors + 1
          ∧ (sendMessage_resolve (fun t => t) egReq FetchOutcome.networkError
              egPendingState).soundAttempts = egPendingState.soundAttempts
          ∧ connectErrorText = "❌ " ++ "Could not connect to backend" ++ ".") :=
  ⟨rfl, sendMessage_resolve_failure (fun t => t) egReq FetchOutcome.networkError
          egPendingState rfl⟩

/-- Claim C10: an HTTP error status with a body that still parses as JSON
takes the success path, because the status code is never inspected: the
result is identical to the same response with status 200, the typing
placeholder is removed, the previously-used-model variable is updated, the
body's `reply` is rendered as the assistant message, and no error is logged
— only a rejected fetch or an unparseable body reaches the failure path. -/
theorem sendMessage_resolve_ignores_status (mp : String → String) (req : PendingReq)
    (st : Nat) (data : ChatResponse) (s : ChatState) :
    sendMessage_resolve mp req (FetchOutcome.response st (some data)) s
        = sendMessage_resolve mp req (FetchOutcome.response 200 (some data)) s
      ∧ (sendMessage_resolve mp req (FetchOutcome.response st (some data)) s).lastModelUsed
        = req.payload.model
      ∧ (sendMessage_resolve mp req (FetchOutcome.response st (some data)) s).consoleErrors
        = s.consoleErrors
      ∧ (sendMessage_resolve mp req (FetchOutcome.response st (some data)) s).transcript
        = removeTyping req.bubbleId s.transcript
            ++ systemNoteEntries data.system_note
            ++ [Entry.ai (wrapCodeBlocks (mp data.reply))] := by
  refine ⟨rfl, ?_, ?_, ?_⟩ <;>
    cases hsn : data.system_note with
    | none => simp [sendMessage_resolve, addSystemNote, addAIMessage, playClick,
        systemNoteEntries, hsn]
    | some note =>
      by_cases hne : note = "" <;>
        simp [sendMessage_resolve, addSystemNote, addAIMessage, playClick,
          systemNoteEntries, hsn, hne]

lemma bindBtn_idem (b : CopyBtn) : bindBtn (bindBtn b) = bindBtn b := by
  by_cases h : b.bound <;> simp [bindBtn, h]

lemma activateCopyButtons_fix (bs : List CopyBtn) :
    activateCopyButtons (activateCopyButtons bs) = activateCopyButtons bs := by
  simp [activateCopyButtons, List.map_map, Function.comp_def, bindBtn_idem]

lemma activateCopyButtons_iterate_fix (bs : List CopyBtn) :
    ∀ m : Nat, activateCopyButtons^[m] (activateCopyButtons bs) = activateCopyButtons bs := by
  intro m
  induction m with
  | zero => rfl
  | succ m ih => rw [Function.iterate_succ_apply, activateCopyButtons_fix, ih]

/-- Claim C7: the copy-action binder is idempotent.  Running it any number
`n ≥ 1` of times over the same buttons equals running it once (one `bindBtn`
per element); an element without the `data-bound` marker gets exactly one
handler attached and its marker set; an element whose marker is already set
is never bound again (it is returned untouched). -/
theorem activateCopyButtons_idempotent (bs : List CopyBtn) (n : Nat) (h : 1 ≤ n) :
    activateCopyButtons^[n] bs = bs.map bindBtn
      ∧ (∀ b : CopyBtn, b.bound = false →
          (bindBtn b).handlers = b.handlers + 1 ∧ (bindBtn b).bound = true)
      ∧ (∀ b : CopyBtn, b.bound = true → bindBtn b = b) := by
  refine ⟨?_, ?_, ?_⟩
  · obtain ⟨m, rfl⟩ : ∃ m, n = m + 1 := ⟨n - 1, (Nat.succ_pred_eq_of_pos h).symm⟩
    rw [Function.iterate_succ_apply, activateCopyButtons_iterate_fix]
    rfl
  · intro b hb
    simp [bindBtn, hb]
  · intro b hb
    simp [bindBtn, hb]

theorem activateCopyButtons_idempotent_witness :
    1 ≤ 3
      ∧ (activateCopyButtons^[3] [CopyBtn.mk false 0 "copy", CopyBtn.mk true 1 "copy"]
            = [CopyBtn.mk false 0 "copy", CopyBtn.mk true 1 "copy"].map bindBtn
          ∧ (∀ b : CopyBtn, b.bound = false →
              (bindBtn b).handlers = b.handlers + 1 ∧ (bindBtn b).bound = true)
          ∧ (∀ b : CopyBtn, b.bound = true → bindBtn b = b)) :=
  ⟨by decide,
   activateCopyButtons_idempotent [CopyBtn.mk false 0 "copy", CopyBtn.mk true 1 "copy"]
     3 (by decide)⟩

/-- Claim C6 is false on the code: the claimed invariant — no sequence of
user actions can produce two simultaneously pending backend calls — fails on
the concrete four-event sequence type-send-type-send: nothing guards a send
while another is pending, so both fetches are in flight together. -/
theorem two_pending_counterexample :
    ¬ (∀ evs : List Event, (∀ e ∈ evs, isUserAction e = true) →
        (run (fun t => t) (initState (fun t => t) "llama3") evs).pending.length ≤ 1) := by
  intro hinv
  have h2 := hinv
    [Event.setInput "hello", Event.clickSend, Event.setInput "again", Event.clickSend]
    (by decide)
  have h3 : List.length (ChatState.pending (run (fun t => t)
      (initState (fun t => t) "llama3")
      [Event.setInput "hello", Event.clickSend, Event.setInput "again", Event.clickSend]))
      = 2 := by decide
  rw [h3] at h2
  exact absurd h2 (by decide)

/-- Claim C6 amended: the widget does NOT bound the number of in-flight
requests; a second send while one is pending issues a second backend call,
so any two sends with non-empty trimmed inputs leave the in-flight set two
larger — concurrent pending requests are reachable and unguarded. -/
theorem two_pending_unguarded (mp : String → String) (s : ChatState) (t1 t2 : String)
    (h1 : jsTrim t1 ≠ "") (h2 : jsTrim t2 ≠ "") :
    List.length (ChatState.pending
        (run mp s [Event.setInput t1, Event.clickSend, Event.setInput t2, Event.clickSend]))
      = s.pending.length + 2 := by
  simp [run, step, sendMessage_start, addUserMessage, addTypingBubble, h1, h2]

theorem two_pending_unguarded_witness :
    jsTrim "hello" ≠ "" ∧ jsTrim "again" ≠ ""
      ∧ List.length (ChatState.pending (run (fun t => t) egIdle
          [Event.setInput "hello", Event.clickSend, Event.setInput "again", Event.clickSend]))
        = egIdle.pending.length + 2 :=
  ⟨by decide, by decide,
   two_pending_unguarded (fun t => t) egIdle "hello" "again" (by decide) (by decide)⟩

lemma hasPrefixL_append_self (n x : List Char) : hasPrefixL n (n ++ x) = true := by
  induction n with
  | nil => rfl
  | cons a as ih => simp [hasPrefixL, ih]

lemma hasPrefixL_length {n h : List Char} (hp : hasPrefixL n h = true) :
    n.length ≤ h.length := by
  induction n generalizing h with
  | nil => simp
  | cons a as ih =>
    cases h with
    | nil => simp [hasPrefixL] at hp
    | cons b bs =>
      simp only [hasPrefixL, Bool.and_eq_true] at hp
      have := ih hp.2
      simp only [List.length_cons]
      omega


lemma splitFirst_lt {needle hay b a : List Char} (hne : needle ≠ [])
    (h : splitFirst needle hay = some (b, a)) : a.length < hay.length := by
  induction hay generalizing b a with
  | nil => simp [splitFirst, hne] at h
  | cons c t ih =>
    rw [splitFirst] at h
    by_cases hp : hasPrefixL needle (c :: t) = true
    · rw [if_pos hp] at h
      have hlen := hasPrefixL_length hp
      have hn1 : 1 ≤ needle.length := by
        cases needle with
        | nil => exact absurd rfl hne
        | cons x xs => simp
      simp only [Option.some.injEq, Prod.mk.injEq] at h
      obtain ⟨rfl, rfl⟩ := h
      simp only [List.length_drop]
      simp only [List.length_cons] at hlen ⊢
      omega
    · rw [if_neg hp] at h
      cases hsf : splitFirst needle t with
      | none => rw [hsf] at h; simp at h
      | some p =>
        rw [hsf] at h
        simp only [Option.map_some', Option.some.injEq, Prod.mk.injEq] at h
        obtain ⟨rfl, rfl⟩ := h
        have := ih (b := p.1) (a := p.2) (by rw [hsf])
        simp only [List.length_cons]
        omega

lemma splitFirstStopNL_lt {needle hay b a : List Char} (hne : needle ≠ [])
    (h : splitFirstStopNL needle hay = some (b, a)) : a.length < hay.length := by
  induction hay generalizing b a with
  | nil => simp [splitFirstStopNL, hne] at h
  | cons c t ih =>
    rw [splitFirstStopNL] at h
    by_cases hp : hasPrefixL needle (c :: t) = true
    · rw [if_pos hp] at h
      have hlen := hasPrefixL_length hp
      have hn1 : 1 ≤ needle.length := by
        cases needle with
        | nil => exact absurd rfl hne
        | cons x xs => simp
      simp only [Option.some.injEq, Prod.mk.injEq] at h
      obtain ⟨rfl, rfl⟩ := h
      simp only [List.length_drop]
      simp only [List.length_cons] at hlen ⊢
      omega
    · rw [if_neg hp] at h
      by_cases hnl : c = '\n'
      · rw [if_pos hnl] at h; simp at h
      · rw [if_neg hnl] at h
        cases hsf : splitFirstStopNL needle t with
        | none => rw [hsf] at h; simp at h
        | some p =>
          rw [hsf] at h
          simp only [Option.map_some', Option.some.injEq, Prod.mk.injEq] at h
          obtain ⟨rfl, rfl⟩ := h
          have := ih (b := p.1) (a := p.2) (by rw [hsf])
          simp only [List.length_cons]
          omega

lemma preCodeOpen_ne : preCodeOpen ≠ [] := by decide

lemma closeTag_ne : closeTag ≠ [] := by decide

lemma quoteGt_ne : quoteGt ≠ [] := by decide

lemma matchCodeBlock_lt {s code rest : List Char}
    (h : matchCodeBlock s = some (code, rest)) : rest.length < s.length := by
  rw [matchCodeBlock] at h
  by_cases h1 : hasPrefixL preCodeOpen s = true
  · rw [if_pos h1] at h
    have hs10 : preCodeOpen.length ≤ s.length := hasPrefixL_length h1
    have hpc : 1 ≤ preCodeOpen.length := by decide
    by_cases h2 : hasPrefixL langOpen (s.drop preCodeOpen.length) = true
    · rw [if_pos h2] at h
      cases hq : splitFirstStopNL quoteGt ((s.drop preCodeOpen.length).drop langOpen.length) with
      | none => rw [hq] at h; simp at h
      | some p =>
        rw [hq] at h
        simp only [Option.some_bind] at h
        have hlt1 : rest.length < p.2.length := splitFirst_lt closeTag_ne h
        have hlt2 : p.2.length < ((s.drop preCodeOpen.length).drop langOpen.length).length :=
          splitFirstStopNL_lt quoteGt_ne (by rw [hq])
        simp only [List.length_drop] at hlt2
        omega
    · rw [if_neg h2] at h
      by_cases hgt : (s.drop preCodeOpen.length).headD ' ' = '>'
      · rw [if_pos hgt] at h
        have hlt1 : rest.length < (s.drop preCodeOpen.length).tail.length :=
          splitFirst_lt closeTag_ne h
        have : (s.drop preCodeOpen.length).tail.length ≤ s.length - preCodeOpen.length := by
          simp only [List.length_tail, List.length_drop]
          omega
        omega
      · rw [if_neg hgt] at h
        simp at h
  · rw [if_neg h1] at h; simp at h

lemma wrapAuxF_nil (f : Nat) : wrapAuxF f [] = [] := by
  cases f <;> rfl

lemma wrapAuxF_cons (f : Nat) (c : Char) (cs : List Char) :
    wrapAuxF (f + 1) (c :: cs)
      = match matchCodeBlock (c :: cs) with
        | some (code, rest) => wrapHeadL ++ code ++ wrapTailL ++ wrapAuxF f rest
        | none => c :: wrapAuxF f cs := rfl

lemma wrapAuxF_congr (f1 : Nat) :
    ∀ (f2 : Nat) (l : List Char), l.length ≤ f1 → l.length ≤ f2 →
      wrapAuxF f1 l = wrapAuxF f2 l := by
  induction f1 with
  | zero =>
    intro f2 l h1 _
    have : l = [] := List.eq_nil_of_length_eq_zero (Nat.le_zero.mp h1)
    subst this
    rw [wrapAuxF_nil, wrapAuxF_nil]
  | succ f ih =>
    intro f2 l h1 h2
    cases l with
    | nil => rw [wrapAuxF_nil, wrapAuxF_nil]
    | cons c cs =>
      obtain ⟨f2p, rfl⟩ : ∃ k, f2 = k + 1 := by
        cases f2 with
        | zero => simp at h2
        | succ k => exact ⟨k, rfl⟩
      rw [wrapAuxF_cons, wrapAuxF_cons]
      simp only [List.length_cons] at h1 h2
      cases hm : matchCodeBlock (c :: cs) with
      | none =>
        rw [ih f2p cs (by omega) (by omega)]
      | some p =>
        obtain ⟨ca, cr⟩ := p
        have hlt : cr.length < cs.length + 1 := by
          simpa using matchCodeBlock_lt (s := c :: cs) (by rw [hm])
        show wrapHeadL ++ ca ++ wrapTailL ++ wrapAuxF f cr
          = wrapHeadL ++ ca ++ wrapTailL ++ wrapAuxF f2p cr
        rw [ih f2p cr (by omega) (by omega)]

lemma wrapL_cons_match {c : Char} {cs code rest : List Char}
    (h : matchCodeBlock (c :: cs) = some (code, rest)) :
    wrapL (c :: cs) = wrapHeadL ++ code ++ wrapTailL ++ wrapL rest := by
  have hlt : rest.length < cs.length + 1 := by
    simpa using matchCodeBlock_lt (s := c :: cs) h
  rw [wrapL, List.length_cons, wrapAuxF_cons, h]
  show wrapHeadL ++ code ++ wrapTailL ++ wrapAuxF cs.length rest
    = wrapHeadL ++ code ++ wrapTailL ++ wrapL rest
  rw [wrapAuxF_congr cs.length rest.length rest (by omega) (by omega)]
  rfl

lemma wrapL_cons_nomatch {c : Char} {cs : List Char}
    (h : matchCodeBlock (c :: cs) = none) :
    wrapL (c :: cs) = c :: wrapL cs := by
  rw [wrapL, List.length_cons, wrapAuxF_cons, h]
  rfl

lemma splitFirst_append (d : Char) (ds pre suf : List Char)
    (h : ∀ c ∈ pre, c ≠ d) :
    splitFirst (d :: ds) (pre ++ (d :: ds) ++ suf) = some (pre, suf) := by
  induction pre with
  | nil =>
    simp only [List.nil_append, List.cons_append]
    rw [splitFirst]
    rw [if_pos]
    · simp only [Option.some.injEq, Prod.mk.injEq]
      refine ⟨trivial, ?_⟩
      simp
    · have := hasPrefixL_append_self (d :: ds) suf
      simpa [List.cons_append] using this
  | cons c pre' ih =>
    have hc : c ≠ d := h c (List.mem_cons_self c pre')
    have hpre' : ∀ x ∈ pre', x ≠ d := fun x hx => h x (List.mem_cons_of_mem c hx)
    simp only [List.cons_append]
    rw [splitFirst]
    rw [if_neg]
    · have hih := ih hpre'
      simp only [List.cons_append] at hih
      rw [hih]
      rfl
    · simp only [hasPrefixL, Bool.and_eq_true, beq_iff_eq, not_and]
      intro hdc
      exact absurd hdc.symm hc

lemma splitFirstStopNL_append (d : Char) (ds pre suf : List Char)
    (h : ∀ c ∈ pre, c ≠ d ∧ c ≠ '\n') :
    splitFirstStopNL (d :: ds) (pre ++ (d :: ds) ++ suf) = some (pre, suf) := by
  induction pre with
  | nil =>
    simp only [List.nil_append, List.cons_append]
    rw [splitFirstStopNL]
    rw [if_pos]
    · simp only [Option.some.injEq, Prod.mk.injEq]
      refine ⟨trivial, ?_⟩
      simp
    · have := hasPrefixL_append_self (d :: ds) suf
      simpa [List.cons_append] using this
  | cons c pre' ih =>
    have hc : c ≠ d := (h c (List.mem_cons_self c pre')).1
    have hnl : c ≠ '\n' := (h c (List.mem_cons_self c pre')).2
    have hpre' : ∀ x ∈ pre', x ≠ d ∧ x ≠ '\n' :=
      fun x hx => h x (List.mem_cons_of_mem c hx)
    simp only [List.cons_append]
    rw [splitFirstStopNL]
    rw [if_neg, if_neg hnl]
    · have hih := ih hpre'
      simp only [List.cons_append] at hih
      rw [hih]
      rfl
    · simp only [hasPrefixL, Bool.and_eq_true, beq_iff_eq, not_and]
      intro hdc
      exact absurd hdc.symm hc

lemma splitFirst_prefix_free (d : Char) (ds pre suf : List Char)
    (h : ∀ c ∈ pre, c ≠ d) :
    splitFirst (d :: ds) (pre ++ ((d :: ds) ++ suf)) = some (pre, suf) := by
  have := splitFirst_append d ds pre suf h
  rwa [List.append_assoc] at this

lemma splitFirstStopNL_prefix_free (d : Char) (ds pre suf : List Char)
    (h : ∀ c ∈ pre, c ≠ d ∧ c ≠ '\n') :
    splitFirstStopNL (d :: ds) (pre ++ ((d :: ds) ++ suf)) = some (pre, suf) := by
  have := splitFirstStopNL_append d ds pre suf h
  rwa [List.append_assoc] at this

lemma quoteGt_eq : quoteGt = '"' :: ['>'] := rfl

lemma closeTag_eq : closeTag = '<' :: "/code></pre>".data := rfl

lemma matchCodeBlock_block_lang (lang code rest : List Char)
    (hlang : ∀ c ∈ lang, c ≠ '"' ∧ c ≠ '\n') (hcode : ∀ c ∈ code, c ≠ '<') :
    matchCodeBlock (preCodeOpen ++ langOpen ++ lang ++ quoteGt ++ code ++ closeTag ++ rest)
      = some (code, rest) := by
  rw [matchCodeBlock]
  simp only [List.append_assoc]
  rw [if_pos]
  · rw [List.drop_left]
    rw [if_pos (hasPrefixL_append_self langOpen _)]
    rw [List.drop_left]
    rw [quoteGt_eq, splitFirstStopNL_prefix_free '"' ['>'] lang _ hlang]
    simp only [Option.some_bind]
    rw [closeTag_eq, splitFirst_prefix_free '<' _ code rest hcode]
  · exact hasPrefixL_append_self preCodeOpen _

lemma matchCodeBlock_block_plain (code rest : List Char)
    (hcode : ∀ c ∈ code, c ≠ '<') :
    matchCodeBlock (preCodeOpen ++ ['>'] ++ code ++ closeTag ++ rest)
      = some (code, rest) := by
  rw [matchCodeBlock]
  simp only [List.append_assoc, List.singleton_append, List.cons_append, List.nil_append]
  rw [if_pos]
  · rw [List.drop_left]
    rw [if_neg]
    · rw [if_pos]
      · simp only [List.tail_cons]
        rw [closeTag_eq, splitFirst_prefix_free '<' _ code rest hcode]
      · simp only [List.headD_cons]
    · intro hcontra
      have hfalse : hasPrefixL langOpen ('>' :: (code ++ (closeTag ++ rest))) = false := rfl
      rw [hfalse] at hcontra
      exact Bool.false_ne_true hcontra
  · exact hasPrefixL_append_self preCodeOpen _

lemma preCodeOpen_eq : preCodeOpen = '<' :: "pre><code".data := rfl

lemma wrapL_block_lang (lang code rest : List Char)
    (hlang : ∀ c ∈ lang, c ≠ '"' ∧ c ≠ '\n') (hcode : ∀ c ∈ code, c ≠ '<') :
    wrapL (preCodeOpen ++ langOpen ++ lang ++ quoteGt ++ code ++ closeTag ++ rest)
      = wrapHeadL ++ code ++ wrapTailL ++ wrapL rest := by
  have hm := matchCodeBlock_block_lang lang code rest hlang hcode
  have hshape : preCodeOpen ++ langOpen ++ lang ++ quoteGt ++ code ++ closeTag ++ rest
      = '<' :: ("pre><code".data
          ++ (langOpen ++ (lang ++ (quoteGt ++ (code ++ (closeTag ++ rest)))))) := by
    rw [preCodeOpen_eq]
    simp [List.append_assoc, List.cons_append]
  rw [hshape] at hm ⊢
  exact wrapL_cons_match hm

lemma wrapL_block_plain (code rest : List Char) (hcode : ∀ c ∈ code, c ≠ '<') :
    wrapL (preCodeOpen ++ ['>'] ++ code ++ closeTag ++ rest)
      = wrapHeadL ++ code ++ wrapTailL ++ wrapL rest := by
  have hm := matchCodeBlock_block_plain code rest hcode
  have hshape : preCodeOpen ++ ['>'] ++ code ++ closeTag ++ rest
      = '<' :: ("pre><code".data ++ ('>' :: (code ++ (closeTag ++ rest)))) := by
    rw [preCodeOpen_eq]
    simp [List.append_assoc, List.cons_append]
  rw [hshape] at hm ⊢
  exact wrapL_cons_match hm

set_option maxRecDepth 100000 in
/-- Claim C5: the markdown post-processor replaces an occurrence of a
`<pre><code>` element — with or without a language class — by the
`code-wrapper` element holding a copy-action button labeled `copy` followed
by the original `<pre><code>` content with the language class dropped, and
continues the global replace on the remaining input.  The hypotheses are the
converter's guarantees: the language token holds neither `"` nor newline,
and the code body is HTML-escaped (contains no `<`).  In particular, for a
converter-rendered fenced code block with content `print(1)`, the output
holds exactly one copy-action control and exactly one adjacent code element
whose text content is `print(1)`. -/
theorem wrapCodeBlocks_replaces (lang code rest : String)
    (hlang : ∀ c ∈ lang.data, c ≠ '"' ∧ c ≠ '\n')
    (hcode : ∀ c ∈ code.data, c ≠ '<') :
    wrapCodeBlocks
        ("<pre><code class=\"language-" ++ lang ++ "\">" ++ code ++ "</code></pre>" ++ rest)
        = codeWrapper code ++ wrapCodeBlocks rest
      ∧ wrapCodeBlocks ("<pre><code>" ++ code ++ "</code></pre>" ++ rest)
        = codeWrapper code ++ wrapCodeBlocks rest
      ∧ countOccur "<button class=\"copy-btn\">copy</button>".data
          (wrapCodeBlocks "<pre><code class=\"language-python\">print(1)</code></pre>").data
        = 1
      ∧ countOccur "<pre><code>print(1)</code></pre>".data
          (wrapCodeBlocks "<pre><code class=\"language-python\">print(1)</code></pre>").data
        = 1 := by
  refine ⟨?_, ?_, ?_, ?_⟩
  · apply String.ext
    show wrapL (preCodeOpen ++ langOpen ++ lang.data ++ quoteGt ++ code.data
        ++ closeTag ++ rest.data)
      = (codeWrapper code ++ wrapCodeBlocks rest).data
    rw [wrapL_block_lang lang.data code.data rest.data hlang hcode]
    show wrapHeadL ++ code.data ++ wrapTailL ++ wrapL rest.data
      = (codeWrapper code ++ wrapCodeBlocks rest).data
    simp [codeWrapper, wrapHeadL, wrapTailL, wrapCodeBlocks, String.data_append,
      List.append_assoc]
  · apply String.ext
    show wrapL (preCodeOpen ++ ['>'] ++ code.data ++ closeTag ++ rest.data)
      = (codeWrapper code ++ wrapCodeBlocks rest).data
    rw [wrapL_block_plain code.data rest.data hcode]
    show wrapHeadL ++ code.data ++ wrapTailL ++ wrapL rest.data
      = (codeWrapper code ++ wrapCodeBlocks rest).data
    simp [codeWrapper, wrapHeadL, wrapTailL, wrapCodeBlocks, String.data_append,
      List.append_assoc]
  · decide
  · decide

set_option maxRecDepth 100000 in
theorem wrapCodeBlocks_replaces_witness :
    (∀ c ∈ "python".data, c ≠ '"' ∧ c ≠ '\n')
      ∧ (∀ c ∈ "print(1)".data, c ≠ '<')
      ∧ (wrapCodeBlocks
            ("<pre><code class=\"language-" ++ "python" ++ "\">" ++ "print(1)"
              ++ "</code></pre>" ++ "")
            = codeWrapper "print(1)" ++ wrapCodeBlocks ""
          ∧ wrapCodeBlocks ("<pre><code>" ++ "print(1)" ++ "</code></pre>" ++ "")
            = codeWrapper "print(1)" ++ wrapCodeBlocks ""
          ∧ countOccur "<button class=\"copy-btn\">copy</button>".data
              (wrapCodeBlocks "<pre><code class=\"language-python\">print(1)</code></pre>").data
            = 1
          ∧ countOccur "<pre><code>print(1)</code></pre>".data
              (wrapCodeBlocks "<pre><code class=\"language-python\">print(1)</code></pre>").data
            = 1) :=
  ⟨by decide, by decide,
   wrapCodeBlocks_replaces "python" "print(1)" "" (by decide) (by decide)⟩
